import Mathlib

/-!
Verification of the ASR plugin framework (VoskPlugin / ConfigManager).

This file gives a shallow embedding, translated from the Python sources, of:

* the configuration mapping handed to the plugin (a Python dict of scalar
  values, addressed through a small heap so that reference/aliasing
  behaviour of `self._config = config` is captured faithfully);
* `VoskPlugin.setup`, `VoskPlugin.initialize`, `VoskPlugin.teardown`,
  `VoskPlugin.load_model`, `VoskPlugin.validate_files`,
  `VoskPlugin.transcribe_file` (src/core/plugins/asr/vosk_plugin/vosk_plugin.py);
* `ConfigManager.get_config`, `ConfigManager.set_config`,
  `ConfigManager.validate_model_files` (src/utils/config_manager.py).

The filesystem is abstracted as a set of existing file and directory paths,
and the wave library as a map from paths to parsed WAV headers/frames;
`os.path.join` is modelled as separator concatenation and `os.path.isabs`
with the leading-separator convention.  Python exceptions raised inside the
plugin are all caught by the source's own try/except blocks, which return
`False`/`None`; the embedding inlines each handler at its raise site, so the
embedded operations are total functions.
-/

/-- Python scalar values that occur in a `ModelConfig` mapping
(`None`, strings, booleans, integers). -/
inductive CVal where
  | pynone
  | str (s : String)
  | bool (b : Bool)
  | int (n : Int)
deriving DecidableEq, Repr

/-- Python truthiness for config values (`if not model_path:` etc.). -/
def CVal.truthy : CVal → Bool
  | .pynone => false
  | .str s => !(s == "")
  | .bool b => b
  | .int n => !(n == 0)

/-- A Python dict with string keys and scalar values, insertion-ordered. -/
abbrev PyDict := List (String × CVal)

/-- Dict lookup (`d[k]` / `d.get(k)`). -/
def dictGet : PyDict → String → Option CVal
  | [], _ => none
  | (k', v) :: rest, k => if k' = k then some v else dictGet rest k

/-- Dict update (`d[k] = v`): replaces in place, else appends. -/
def dictSet : PyDict → String → CVal → PyDict
  | [], k, v => [(k, v)]
  | (k', v') :: rest, k, v =>
      if k' = k then (k, v) :: rest else (k', v') :: dictSet rest k v

/-- A heap of dict objects, so that `self._config = config` can retain a
reference to the caller's mapping rather than a copy. -/
abbrev Heap := List (Nat × PyDict)

/-- Dereference a dict address. -/
def heapGet : Heap → Nat → Option PyDict
  | [], _ => none
  | (a', d) :: rest, a => if a' = a then some d else heapGet rest a

/-- Overwrite the dict stored at an address. -/
def heapSet : Heap → Nat → PyDict → Heap
  | [], _, _ => []
  | (a', d') :: rest, a, d =>
      if a' = a then (a, d) :: rest else (a', d') :: heapSet rest a d

/-- An address not yet used by the heap (for allocating a fresh dict). -/
def freshAddr (h : Heap) : Nat := (h.map Prod.fst).foldr max 0 + 1

/-- The filesystem visible to `os.path.exists` / `os.path.isdir`, as the
sets of existing file paths and existing directory paths. -/
structure FS where
  files : List String
  dirs : List String
deriving DecidableEq, Repr

/-- Embedding of `os.path.exists`. -/
def FS.pathExists (fs : FS) (p : String) : Bool :=
  fs.files.contains p || fs.dirs.contains p

/-- Embedding of `os.path.isdir`. -/
def FS.isDir (fs : FS) (p : String) : Bool := fs.dirs.contains p

/-- Embedding of `os.path.join` on two components. -/
def pjoin (a b : String) : String := a ++ "/" ++ b

/-- Embedding of Python's `str.startswith`, over the character list. -/
def pyStartsWith (s pre : String) : Bool := pre.data.isPrefixOf s.data

/-- Embedding of `os.path.isabs` (leading-separator convention). -/
def isAbs (p : String) : Bool := pyStartsWith p "/"

/-- The process environment the plugin code reads: the filesystem,
`os.getcwd()`, and the project root derived from `__file__`. -/
structure Env where
  fs : FS
  cwd : String
  projectRoot : String
deriving DecidableEq, Repr

/-- The four artifact files `ConfigManager.validate_model_files` requires
for the sherpa family (`required_files` in the source). -/
def sherpaRequiredFiles : List String :=
  ["encoder.onnx", "decoder.onnx", "joiner.onnx", "tokens.txt"]

/-- Embedding of `ConfigManager.validate_model_files(model_path, model_type)`:
the model root must exist; a `sherpa*` type then requires the four named
artifact files under the root, type `"vosk"` requires the `am` and `conf`
directories, and any other type skips file validation. -/
def validate_model_files (env : Env) (model_path : String) (model_type : String) : Bool :=
  if !env.fs.pathExists model_path then false
  else if pyStartsWith model_type "sherpa" then
    sherpaRequiredFiles.all (fun f => env.fs.pathExists (pjoin model_path f))
  else if model_type == "vosk" then
    ["am", "conf"].all (fun d =>
      env.fs.pathExists (pjoin model_path d) && env.fs.isDir (pjoin model_path d))
  else true

namespace Vosk

/-- The mock `Model` class defined at the top of vosk_plugin.py: it just
stores the path it was constructed with. -/
structure Model where
  model_path : String
deriving DecidableEq, Repr

/-- The mock `KaldiRecognizer` class: stores the model and sample rate at
construction; `SetWords` later stores the `use_words` flag. -/
structure Recognizer where
  model : Model
  sample_rate : CVal
  use_words : Option CVal
deriving DecidableEq, Repr

/-- A Python exception value (only its presence matters here). -/
structure PyErr where
  msg : String
deriving DecidableEq, Repr

/-- The operations `setup` invokes on the `vosk_lib` module object.  In the
source, `vosk_lib` is a module-level binding (the in-file mock, swappable
for the real vosk library), so the embedding takes it as a parameter; each
operation may raise, matching the try/except blocks around the calls. -/
structure Lib where
  ModelNew : String → Except PyErr Model
  RecognizerNew : Model → CVal → Except PyErr Recognizer
  SetWords : Recognizer → CVal → Except PyErr Recognizer

/-- The `vosk_lib` instance the source file actually defines: the mock
module whose constructors never fail. -/
def vosk_lib : Lib where
  ModelNew p := .ok { model_path := p }
  RecognizerNew m sr := .ok { model := m, sample_rate := sr, use_words := none }
  SetWords r w := .ok { r with use_words := some w }

end Vosk

/-- The mutable attributes of a `VoskPlugin` instance.  `configRef` is the
reference `self._config` holds into the heap of dict objects (`none` when
the attribute is absent, as the `hasattr(self, '_config')` guards in
`load_model` allow). -/
structure VoskPluginState where
  configRef : Option Nat
  model : Option Vosk.Model
  recognizer : Option Vosk.Recognizer
  sample_rate : CVal
  use_words : CVal
  engine_type : String
  model_dir : CVal
  initializedFlag : Bool
deriving DecidableEq, Repr

/-- The attribute values `VoskPlugin.__init__` establishes. -/
def VoskPluginState.fresh : VoskPluginState where
  configRef := none
  model := none
  recognizer := none
  sample_rate := .int 16000
  use_words := .bool true
  engine_type := "vosk_small"
  model_dir := .pynone
  initializedFlag := false

/-- Modelled from the spec: `PluginBase.get_config_value` — the plugin base
class is not among the visible sources; §6 of the spec describes the config
as "a mapping with recognized options" with per-key defaults
(`sample_rate: int (default 16000)`, `use_words: bool (default true)`), so
the accessor reads a key from the retained mapping and returns the supplied
default when the key (or the mapping itself) is absent. -/
def get_config_value (heap : Heap) (st : VoskPluginState) (key : String) (dflt : CVal) : CVal :=
  match st.configRef with
  | none => dflt
  | some a =>
    match heapGet heap a with
    | none => dflt
    | some cfg => (dictGet cfg key).getD dflt

/-- Embedding of `self._config[key] = v`: writes through the retained
reference, mutating the shared dict object in the heap. -/
def writeConfigKey (heap : Heap) (st : VoskPluginState) (key : String) (v : CVal) : Heap :=
  match st.configRef with
  | none => heap
  | some a =>
    match heapGet heap a with
    | none => heap
    | some cfg => heapSet heap a (dictSet cfg key v)

/-- The temporary model path `setup` fabricates in mock mode when the config
carries no path (`os.path.join(os.getcwd(), "models", "asr", "vosk", ...)`). -/
def mockDefaultModelPath (cwd : String) : String :=
  pjoin (pjoin (pjoin (pjoin cwd "models") "asr") "vosk") "vosk-model-small-en-us-0.15"

/-- The hardcoded user-specific path `setup` falls back to when neither the
configured path nor its project-root resolution exists. -/
def hardcodedConfigPath : String :=
  "C:\\Users\\crige\\models\\asr\\vosk\\vosk-model-small-en-us-0.15"

/-- Embedding of `VoskPlugin.setup`.  Returns the boolean result together
with the updated instance attributes and heap.  Each `return False` branch
of the source — including the except-handlers, whose only effect is the
`False` result — is inlined at its site with the state reached so far (the
`os.walk` diagnostics at lines 209-231 only log and are omitted). -/
def setup (lib : Vosk.Lib) (env : Env) (st0 : VoskPluginState) (heap0 : Heap) :
    Bool × VoskPluginState × Heap :=
  let mp0 := get_config_value heap0 st0 "path" .pynone
  let mockMode := (get_config_value heap0 st0 "mock_mode" (.bool false)).truthy
  -- `if not model_path:` (missing-path handling, lines 154-163)
  match (if mp0.truthy then some (mp0, heap0)
         else if !mockMode then none
         else
           let p := mockDefaultModelPath env.cwd
           some (CVal.str p, writeConfigKey heap0 st0 "path" (.str p))) with
  | none => (false, st0, heap0)
  | some (mp1, heap1) =>
    let st1 := { st0 with
      sample_rate := get_config_value heap1 st0 "sample_rate" (.int 16000),
      use_words := get_config_value heap1 st0 "use_words" (.bool true) }
    match mp1 with
    | .str mpStr =>
      -- fallback resolution block (lines 175-242)
      match (if !env.fs.pathExists mpStr && !mockMode then
               if !isAbs mpStr then
                 let absPath := pjoin env.projectRoot mpStr
                 if env.fs.pathExists absPath then
                   some (absPath, writeConfigKey heap1 st1 "path" (.str absPath))
                 else if env.fs.pathExists hardcodedConfigPath then
                   some (hardcodedConfigPath,
                         writeConfigKey heap1 st1 "path" (.str hardcodedConfigPath))
                 else none
               else none
             else some (mpStr, heap1)) with
      | none => (false, st1, heap1)
      | some (mp2, heap2) =>
        -- model loading (lines 249-261)
        let afterModel := fun (m : Vosk.Model) =>
          let st2 := { st1 with model := some m }
          -- recognizer creation (lines 264-278); the assignment to
          -- `self.recognizer` precedes `SetWords`, so a `SetWords` failure
          -- leaves the recognizer attribute set
          match lib.RecognizerNew m st2.sample_rate with
          | .error _ =>
            if mockMode then
              match lib.RecognizerNew m st2.sample_rate with
              | .error _ => (false, st2, heap2)
              | .ok r2 =>
                (true, { st2 with recognizer := some r2, engine_type := "vosk_small" }, heap2)
            else (false, st2, heap2)
          | .ok r =>
            let st3 := { st2 with recognizer := some r }
            match lib.SetWords r st2.use_words with
            | .error _ =>
              if mockMode then
                match lib.RecognizerNew m st2.sample_rate with
                | .error _ => (false, st3, heap2)
                | .ok r2 =>
                  (true, { st3 with recognizer := some r2, engine_type := "vosk_small" }, heap2)
              else (false, st3, heap2)
            | .ok r' =>
              (true, { st3 with recognizer := some r', engine_type := "vosk_small" }, heap2)
        match lib.ModelNew mp2 with
        | .error _ =>
          if mockMode then
            match lib.ModelNew "mock_model_path" with
            | .error _ => (false, st1, heap2)
            | .ok m => afterModel m
          else (false, st1, heap2)
        | .ok m => afterModel m
    | _ => (false, st1, heap1)  -- `os.path.exists` on a non-string raises; handler → False

/-- Embedding of `VoskPlugin.initialize`: retains the caller's config by
reference (`self._config = config`), runs `setup`, and marks the instance
initialized on success.  The body is total, mirroring the catch-all
try/except whose handler returns `False`.  (Named `initializePlugin`
because the source's method name is a reserved word in Lean.) -/
def initializePlugin (lib : Vosk.Lib) (env : Env) (a : Nat)
    (st0 : VoskPluginState) (heap0 : Heap) : Bool × VoskPluginState × Heap :=
  let st1 := { st0 with configRef := some a }
  match setup lib env st1 heap0 with
  | (true, st2, heap2) => (true, { st2 with initializedFlag := true }, heap2)
  | (false, st2, heap2) => (false, st2, heap2)

/-- Embedding of `VoskPlugin.teardown`: nulls the model and recognizer. -/
def teardown (st : VoskPluginState) : Bool × VoskPluginState :=
  (true, { st with model := none, recognizer := none })

/-- Embedding of `VoskPlugin.load_model`: copies the retained config, writes
the new path through the retained reference, tears down, re-runs `setup`,
and on failure rebinds `self._config` to the saved copy (a fresh dict
object, allocated at a fresh heap address). -/
def load_model (lib : Vosk.Lib) (env : Env) (st0 : VoskPluginState) (heap0 : Heap)
    (model_path : String) : Bool × VoskPluginState × Heap :=
  let current_config : PyDict :=
    match st0.configRef with
    | some a => (heapGet heap0 a).getD []
    | none => []
  let heap1 := writeConfigKey heap0 st0 "path" (.str model_path)
  let st1 := (teardown st0).2
  match setup lib env st1 heap1 with
  | (true, st2, heap2) => (true, st2, heap2)
  | (false, st2, heap2) =>
    match st2.configRef with
    | some _ =>
      let a' := freshAddr heap2
      (false, { st2 with configRef := some a' }, (a', current_config) :: heap2)
    | none => (false, st2, heap2)

/-- Embedding of `VoskPlugin.validate_files`: caches the configured path in
`self.model_dir`, then checks the root, the `am` subdirectory, and
`am/final.mdl`.  A non-string truthy `model_dir` makes `os.path.exists`
raise, which the handler turns into `False`. -/
def validate_files (env : Env) (st0 : VoskPluginState) (heap : Heap) :
    Bool × VoskPluginState :=
  let st1 := if st0.model_dir.truthy then st0
             else { st0 with model_dir := get_config_value heap st0 "path" .pynone }
  if !st1.model_dir.truthy then (false, st1)
  else
    match st1.model_dir with
    | .str s =>
      if !env.fs.pathExists s then (false, st1)
      else if !(env.fs.pathExists (pjoin s "am") && env.fs.isDir (pjoin s "am")) then
        (false, st1)
      else if !env.fs.pathExists (pjoin (pjoin s "am") "final.mdl") then (false, st1)
      else (true, st1)
    | _ => (false, st1)

/-- No branch of `setup` rebinds `self._config`: the retained reference is
the one the state came in with. -/
theorem setup_configRef (lib : Vosk.Lib) (env : Env) (st : VoskPluginState) (heap : Heap) :
    (setup lib env st heap).2.1.configRef = st.configRef := by
  unfold setup
  dsimp only
  repeat' split
  all_goals rfl

/-- When `setup` reports success, it has installed both a model and a
recognizer. -/
theorem setup_true_installs_session (lib : Vosk.Lib) (env : Env)
    (st : VoskPluginState) (heap : Heap) :
    (setup lib env st heap).1 = true →
      ((setup lib env st heap).2.1.model.isSome = true ∧
       (setup lib env st heap).2.1.recognizer.isSome = true) := by
  unfold setup
  dsimp only
  repeat' split
  all_goals simp

/-- C7: `validate_files` returns true exactly when the effective model root
(the cached `model_dir`, else the configured path) is a non-empty string
naming an existing root whose `am` subdirectory exists as a directory and
contains `final.mdl`; the check neither consults nor replaces the
recognizer. -/
theorem c7_validate_files_layout_check (env : Env) (st : VoskPluginState) (heap : Heap) :
    ((validate_files env st heap).1 = true ↔
      ∃ s : String,
        (if st.model_dir.truthy then st.model_dir
         else get_config_value heap st "path" .pynone) = CVal.str s ∧
        s ≠ "" ∧
        env.fs.pathExists s = true ∧
        env.fs.pathExists (pjoin s "am") = true ∧
        env.fs.isDir (pjoin s "am") = true ∧
        env.fs.pathExists (pjoin (pjoin s "am") "final.mdl") = true) ∧
    (validate_files env st heap).2.recognizer = st.recognizer ∧
    (∀ r, (validate_files env { st with recognizer := r } heap).1
            = (validate_files env st heap).1) := by
  unfold validate_files
  by_cases h0 : st.model_dir.truthy
  · simp only [h0, if_true]
    cases hd : st.model_dir with
    | str s =>
      have hs : s ≠ "" := by
        rw [hd] at h0; simpa [CVal.truthy] using h0
      simp only [get_config_value]
      by_cases h1 : env.fs.pathExists s <;>
        by_cases h2 : env.fs.pathExists (pjoin s "am") <;>
          by_cases h3 : env.fs.isDir (pjoin s "am") <;>
            by_cases h4 : env.fs.pathExists (pjoin (pjoin s "am") "final.mdl") <;>
              simp_all [CVal.truthy]
    | pynone => rw [hd] at h0; simp [CVal.truthy] at h0
    | bool b =>
      cases b
      · rw [hd] at h0; simp [CVal.truthy] at h0
      · simp_all [CVal.truthy]
    | int n =>
      by_cases hn : n = 0
      · rw [hd] at h0; simp [CVal.truthy, hn] at h0
      · simp_all [CVal.truthy]
  · simp only [h0, if_false]
    cases hg : get_config_value heap st "path" .pynone with
    | str s =>
      by_cases hs : s = ""
      · subst hs; simp_all [CVal.truthy, get_config_value]
      · have hg' : ∀ r, get_config_value heap { st with recognizer := r } "path" .pynone
            = CVal.str s := by
          intro r; rw [← hg]; rfl
        by_cases h1 : env.fs.pathExists s <;>
          by_cases h2 : env.fs.pathExists (pjoin s "am") <;>
            by_cases h3 : env.fs.isDir (pjoin s "am") <;>
              by_cases h4 : env.fs.pathExists (pjoin (pjoin s "am") "final.mdl") <;>
                simp_all [CVal.truthy]
    | pynone => simp_all [CVal.truthy, get_config_value]
    | bool b =>
      have hg' : ∀ r, get_config_value heap { st with recognizer := r } "path" .pynone
          = CVal.bool b := by
        intro r; rw [← hg]; rfl
      cases b <;> simp_all [CVal.truthy]
    | int n =>
      have hg' : ∀ r, get_config_value heap { st with recognizer := r } "path" .pynone
          = CVal.int n := by
        intro r; rw [← hg]; rfl
      by_cases hn : n = 0 <;> simp_all [CVal.truthy]

/-- C1: evaluation of `setup` at the failing input.  The plugin is non-mock,
its configured model path (`models/asr/vosk/vosk-model-small-en-us-0.15`,
relative) does not exist, and neither does its project-root resolution —
but the hardcoded user-specific location does.  `setup` then reports
success and silently replaces the configured path with that hardcoded
path, contradicting the claim that the framework never substitutes a
guessed path. -/
theorem c1_setup_substitutes_hardcoded_path :
    (setup Vosk.vosk_lib
        { fs := { files := [], dirs := [hardcodedConfigPath] },
          cwd := "/app", projectRoot := "/app" }
        { VoskPluginState.fresh with configRef := some 0 }
        [(0, [("path", CVal.str "models/asr/vosk/vosk-model-small-en-us-0.15")])]).1
      = true ∧
    dictGet
      ((heapGet
          (setup Vosk.vosk_lib
              { fs := { files := [], dirs := [hardcodedConfigPath] },
                cwd := "/app", projectRoot := "/app" }
              { VoskPluginState.fresh with configRef := some 0 }
              [(0, [("path", CVal.str "models/asr/vosk/vosk-model-small-en-us-0.15")])]).2.2
          0).getD [])
      "path" = some (CVal.str hardcodedConfigPath) := by
  constructor <;> rfl

/-- C2 counterexample: a caller's config mapping `{"mock_mode": True}` at
address 0 is mutated by `initialize` — afterwards the caller's own mapping
carries a `"path"` entry the plugin wrote, refuting the claim that no
plugin-side mutation is observable in the resolver's copy. -/
theorem c2_counterexample_config_mutation_observable :
    dictGet
      ((heapGet
          (initializePlugin Vosk.vosk_lib
              { fs := { files := [], dirs := [] }, cwd := "/app", projectRoot := "/app" }
              0 VoskPluginState.fresh
              [(0, [("mock_mode", CVal.bool true)])]).2.2
          0).getD [])
      "path" = some (CVal.str "/app/models/asr/vosk/vosk-model-small-en-us-0.15") ∧
    dictGet ((heapGet [(0, [("mock_mode", CVal.bool true)])] 0).getD []) "path" = none := by
  constructor <;> rfl

/-- C2 amended: `initialize` retains a direct reference to the caller's
mapping rather than a private copy (`self._config = config`), so every
mutation the plugin performs through it is observable in the caller's
mapping. -/
theorem c2_amended_plugin_aliases_caller_config (lib : Vosk.Lib) (env : Env)
    (a : Nat) (st : VoskPluginState) (heap : Heap) :
    (initializePlugin lib env a st heap).2.1.configRef = some a := by
  unfold initializePlugin
  rcases hs : setup lib env { st with configRef := some a } heap with ⟨b, st2, heap2⟩
  have hcr := setup_configRef lib env { st with configRef := some a } heap
  rw [hs] at hcr
  cases b <;> simp_all

/-- C5: `initialize` always returns a boolean — it never propagates an
exception (the embedding of every handler returns `False`, and the result
is exactly `true` or `false`) — and a `true` result only arises from a
fully successful `setup`, one that installed both the model and the
recognizer and marked the instance initialized; every internal failure
path yields `false`. -/
theorem c5_initialize_returns_bool_never_raises :
    ∀ (lib : Vosk.Lib) (env : Env) (a : Nat) (st : VoskPluginState) (heap : Heap),
      (∃ st2 h2, initializePlugin lib env a st heap = (false, st2, h2)) ∨
      (∃ st2 h2, initializePlugin lib env a st heap = (true, st2, h2) ∧
          st2.model.isSome = true ∧ st2.recognizer.isSome = true ∧
          st2.initializedFlag = true) := by
  intro lib env a st heap
  unfold initializePlugin
  dsimp only
  rcases hs : setup lib env { st with configRef := some a } heap with ⟨b, st2, heap2⟩
  have hins := setup_true_installs_session lib env { st with configRef := some a } heap
  rw [hs] at hins
  cases b
  · exact Or.inl ⟨st2, heap2, rfl⟩
  · refine Or.inr ⟨{ st2 with initializedFlag := true }, heap2, rfl, ?_, ?_, rfl⟩
    · exact (hins rfl).1
    · exact (hins rfl).2

/-- The view of the retained config mapping: the dict the instance's
`self._config` reference points at. -/
def configView (st : VoskPluginState) (heap : Heap) : Option PyDict :=
  st.configRef.bind (heapGet heap)

/-- C9: a failed `load_model` leaves the retained config mapping at the
exact value it held before the call — the temporarily-written new path does
not survive, because the saved copy (taken before the write) is reinstated.
The hypothesis `hv` states that the retained reference, when present,
actually points at a dict, as every Python reference does. -/
theorem c9_load_model_failure_restores_config (lib : Vosk.Lib) (env : Env)
    (st : VoskPluginState) (heap : Heap) (mp : String)
    (st' : VoskPluginState) (heap' : Heap)
    (hv : ∀ a, st.configRef = some a → (heapGet heap a).isSome = true)
    (h : load_model lib env st heap mp = (false, st', heap')) :
    configView st' heap' = configView st heap := by
  unfold load_model at h
  dsimp only at h
  rcases hs : setup lib env (teardown st).2
      (writeConfigKey heap st "path" (.str mp)) with ⟨b, st2, heap2⟩
  rw [hs] at h
  have hcr := setup_configRef lib env (teardown st).2 (writeConfigKey heap st "path" (.str mp))
  rw [hs] at hcr
  have hcr' : st2.configRef = st.configRef := by
    simpa [teardown] using hcr
  cases b
  · -- setup failed: the saved copy is reinstated at a fresh address
    dsimp only at h
    rw [hcr'] at h
    cases hcfg : st.configRef with
    | none =>
      rw [hcfg] at h
      dsimp only at h
      simp only [Prod.mk.injEq] at h
      obtain ⟨-, h1, h2⟩ := h
      subst h1
      subst h2
      simp [configView, hcr', hcfg]
    | some a =>
      rw [hcfg] at h
      dsimp only at h
      simp only [Prod.mk.injEq] at h
      obtain ⟨-, h1, h2⟩ := h
      subst h1
      subst h2
      have hsome := hv a hcfg
      rcases hg : heapGet heap a with _ | cfg
      · rw [hg] at hsome; simp at hsome
      · simp [configView, hcfg, hg, heapGet]
  · dsimp only at h
    simp at h

/-- Witness for C9: a concrete failed reload (the new path exists nowhere
and the plugin is non-mock) restores the retained mapping. -/
theorem c9_witness :
    configView
      (load_model Vosk.vosk_lib
          { fs := { files := [], dirs := [] }, cwd := "/app", projectRoot := "/app" }
          { VoskPluginState.fresh with configRef := some 0 }
          [(0, [("path", CVal.str "/models/old")])] "/nowhere").2.1
      (load_model Vosk.vosk_lib
          { fs := { files := [], dirs := [] }, cwd := "/app", projectRoot := "/app" }
          { VoskPluginState.fresh with configRef := some 0 }
          [(0, [("path", CVal.str "/models/old")])] "/nowhere").2.2
    = configView { VoskPluginState.fresh with configRef := some 0 }
        [(0, [("path", CVal.str "/models/old")])] := by
  exact c9_load_model_failure_restores_config Vosk.vosk_lib
    { fs := { files := [], dirs := [] }, cwd := "/app", projectRoot := "/app" }
    { VoskPluginState.fresh with configRef := some 0 }
    [(0, [("path", CVal.str "/models/old")])] "/nowhere" _ _
    (by intro a ha; cases ha; rfl) rfl

/-- A parsed WAV file as the `wave` module exposes it to `transcribe_file`:
channel count, sample width (bytes), compression type, and the audio
frames (one sample per frame at the mono/16-bit layout the code accepts). -/
structure WavFile where
  nchannels : Nat
  sampwidth : Nat
  comptype : String
  frames : List Int
deriving DecidableEq, Repr

/-- The recognizer session `transcribe_file` drives, abstracted as a state
machine over the methods it calls.  `result`/`finalResult` return the
parsed `"text"` field of the JSON the engine produces (`none` when the key
is absent).  The source's own recognizer instance is
`mockRecognizerMachine` below. -/
structure RecMachine (σ : Type) where
  acceptWaveform : σ → List Int → σ × Bool
  result : σ → σ × Option String
  finalResult : σ → σ × Option String
  reset : σ → σ

/-- The recognizer the source file instantiates: the mock
`KaldiRecognizer`, whose `AcceptWaveform` always reports a boundary and
whose `Result`/`FinalResult` return fixed texts. -/
def mockRecognizerMachine : RecMachine Unit where
  acceptWaveform s _ := (s, true)
  result s := (s, some "这是一个测试结果")
  finalResult s := (s, some "这是一个最终结果")
  reset s := s

/-- The read loop of `transcribe_file`, fuel-indexed so that it is
structural: each iteration reads up to `n` frames and recurses on the
rest; the fuel (instantiated with the file length, an upper bound on the
number of reads) never runs out on the chunks actually produced. -/
def chunksOfAux (n : Nat) : Nat → List α → List (List α)
  | _, [] => []
  | 0, _ :: _ => []
  | fuel + 1, x :: xs =>
    if n == 0 then []
    else (x :: xs).take n :: chunksOfAux n fuel ((x :: xs).drop n)

/-- The chunks `wf.readframes(4000)` yields across the read loop: maximal
runs of `n` frames, the last one possibly shorter, none empty. -/
def chunksOf (n : Nat) (l : List α) : List (List α) := chunksOfAux n l.length l

/-- The read loop is insensitive to the exact fuel, as long as it covers
the list. -/
theorem chunksOfAux_congr (n : Nat) :
    ∀ (f g : Nat) (l : List α), l.length ≤ f → l.length ≤ g →
      chunksOfAux n f l = chunksOfAux n g l := by
  intro f
  induction f with
  | zero =>
    intro g l hf hg
    have h0 : l = [] := List.eq_nil_of_length_eq_zero (Nat.le_zero.mp hf)
    subst h0
    cases g <;> rfl
  | succ f ihf =>
    intro g l hf hg
    cases l with
    | nil => cases g <;> rfl
    | cons x xs =>
      cases g with
      | zero => simp at hg
      | succ g' =>
        show (if n == 0 then [] else _) = (if n == 0 then [] else _)
        by_cases hn : n == 0
        · simp [hn]
        · simp only [hn, if_false]
          have hne : n ≠ 0 := by simpa using hn
          have hlen : ((x :: xs).drop n).length ≤ f := by
            simp only [List.length_drop, List.length_cons]
            simp only [List.length_cons] at hf
            omega
          have hlen' : ((x :: xs).drop n).length ≤ g' := by
            simp only [List.length_drop, List.length_cons]
            simp only [List.length_cons] at hg
            omega
          rw [ihf g' _ hlen hlen']

/-- The read/feed loop of `transcribe_file`: feeds each chunk to
`AcceptWaveform` and, whenever a boundary is reported, collects the
non-empty `Result` text. -/
def streamChunks (M : RecMachine σ) : σ → List (List Int) → σ × List String
  | s, [] => (s, [])
  | s, c :: cs =>
    let p1 := M.acceptWaveform s c
    if p1.2 then
      let p2 := M.result p1.1
      let rest := streamChunks M p2.1 cs
      match p2.2 with
      | some t => if t ≠ "" then (rest.1, t :: rest.2) else (rest.1, rest.2)
      | none => (rest.1, rest.2)
    else
      streamChunks M p1.1 cs

/-- The terminal punctuation marks of the post-processing step
(`['.', '?', '!', ',', ';', ':', '-']` in the source). -/
def terminalPuncts : List Char := ['.', '?', '!', ',', ';', ':', '-']

/-- Embedding of `transcript[0].upper() + transcript[1:]`. -/
def capFirst (t : String) : String :=
  match t.data with
  | [] => t
  | c :: cs => String.mk (c.toUpper :: cs)

/-- Whether `transcript[-1]` is one of the terminal punctuation marks. -/
def lastCharIsPunct (t : String) : Bool :=
  match t.data.getLast? with
  | some c => terminalPuncts.contains c
  | none => false

/-- The post-processing block of `transcribe_file`: on a non-empty
transcript, capitalize the first character, then append a period when the
final character is not terminal punctuation. -/
def formatTranscript (t : String) : String :=
  if t = "" then t
  else
    let t1 := capFirst t
    if lastCharIsPunct t1 then t1 else t1 ++ "."

/-- Embedding of `VoskPlugin.transcribe_file`.  Besides the result and the
final recognizer state it returns the list of chunks actually fed to the
session, so that "before any frame is read" is directly observable.  `wavs`
models `wave.open`: `none` means the open itself raises (caught → `None`).
The recognizer attribute is abstracted to its presence (`hasRecognizer`)
plus the machine `M` driving it. -/
def transcribe_file (M : RecMachine σ) (env : Env) (wavs : String → Option WavFile)
    (hasRecognizer : Bool) (s : σ) (file_path : String) :
    Option String × σ × List (List Int) :=
  if !hasRecognizer then (none, s, [])
  else if !env.fs.pathExists file_path then (none, s, [])
  else
    match wavs file_path with
    | none => (none, s, [])
    | some wf =>
      if !(wf.nchannels == 1 && wf.sampwidth == 2 && wf.comptype == "NONE") then
        (none, s, [])
      else
        let s1 := M.reset s
        let chunks := chunksOf 4000 wf.frames
        let p := streamChunks M s1 chunks
        let q := M.finalResult p.1
        let results :=
          p.2 ++ (match q.2 with
                  | some t => if t ≠ "" then [t] else []
                  | none => [])
        let transcript := String.intercalate " " results
        let out := formatTranscript transcript
        (if out = "" then none else some out, q.1, chunks)

/-- The raw concatenated transcript a successful `transcribe_file` run
collects before post-processing: the boundary results of the stream
plus the final flush, joined with single spaces. -/
def collectedTranscript (M : RecMachine σ) (s : σ) (wf : WavFile) : String :=
  let p := streamChunks M (M.reset s) (chunksOf 4000 wf.frames)
  let q := M.finalResult p.1
  String.intercalate " "
    (p.2 ++ (match q.2 with
             | some t => if t ≠ "" then [t] else []
             | none => []))

/-- The post-processing rule exactly as the spec states it: capitalize the
first character of the concatenated result, and append a period if and only
if its last character is not one of the terminal punctuation marks. -/
def specPostProcess (t : String) : String :=
  capFirst t ++ (if lastCharIsPunct t then "" else ".")

/-- Packing a valid scalar value and reading it back is the identity. -/
theorem toNat_ofNat_valid (n : Nat) (h : n < 55296) : (Char.ofNat n).toNat = n := by
  have hv : n.isValidChar := Or.inl h
  rw [Char.ofNat, dif_pos hv]
  rfl

/-- Uppercasing never moves a character into or out of the terminal
punctuation set: the punctuation marks are not letters, and uppercased
letters are not punctuation marks. -/
theorem contains_toUpper_eq (c : Char) :
    terminalPuncts.contains c.toUpper = terminalPuncts.contains c := by
  by_cases hr : Char.toNat c ≥ 97 ∧ Char.toNat c ≤ 122
  · have hup : c.toUpper = Char.ofNat (c.toNat - 32) := by
      simp [Char.toUpper, hr]
    have hm : (Char.ofNat (c.toNat - 32)).toNat = c.toNat - 32 :=
      toNat_ofNat_valid _ (by omega)
    have hc : terminalPuncts.contains c = false := by
      apply Bool.eq_false_iff.mpr
      intro hmem
      have hmem' : c ∈ terminalPuncts := by simpa using hmem
      simp only [terminalPuncts, List.mem_cons, List.not_mem_nil, or_false] at hmem'
      rcases hmem' with h | h | h | h | h | h | h <;>
        (subst h; revert hr; decide)
    have hu : terminalPuncts.contains c.toUpper = false := by
      rw [hup]
      apply Bool.eq_false_iff.mpr
      intro hmem
      have hmem' : Char.ofNat (c.toNat - 32) ∈ terminalPuncts := by simpa using hmem
      simp only [terminalPuncts, List.mem_cons, List.not_mem_nil, or_false] at hmem'
      rcases hmem' with h | h | h | h | h | h | h <;>
        (have h2 := congrArg Char.toNat h;
         rw [hm] at h2;
         have h3 : (65 : Nat) ≤ c.toNat - 32 := by omega;
         rw [h2] at h3;
         revert h3;
         decide)
    rw [hc, hu]
  · have hup : c.toUpper = c := by
      simp [Char.toUpper, hr]
    rw [hup]

/-- Capitalizing the first character does not change whether the last
character is terminal punctuation. -/
theorem lastCharIsPunct_capFirst (t : String) :
    lastCharIsPunct (capFirst t) = lastCharIsPunct t := by
  cases ht : t.data with
  | nil =>
    unfold capFirst
    rw [ht]
  | cons c cs =>
    cases cs with
    | nil =>
      simp only [capFirst, lastCharIsPunct, ht]
      exact contains_toUpper_eq c
    | cons c2 cs2 =>
      simp only [capFirst, lastCharIsPunct, ht, List.getLast?_cons_cons]

/-- A non-empty transcript has a non-empty character list. -/
theorem data_ne_nil_of_ne_empty (t : String) (h : t ≠ "") : t.data ≠ [] := by
  intro hd
  apply h
  cases t with
  | mk l => cases hd; rfl

/-- On a non-empty transcript the source's formatting block computes
exactly the spec's rule (capitalize first, then period iff the last
character of the concatenated result is not terminal punctuation). -/
theorem formatTranscript_eq_spec (t : String) (h : t ≠ "") :
    formatTranscript t = specPostProcess t := by
  unfold formatTranscript specPostProcess
  rw [if_neg h]
  dsimp only
  rw [lastCharIsPunct_capFirst]
  by_cases hp : lastCharIsPunct t = true
  · simp [hp]
  · simp [hp]

/-- Formatting a non-empty transcript yields a non-empty string. -/
theorem formatTranscript_ne_empty (t : String) (h : t ≠ "") :
    formatTranscript t ≠ "" := by
  unfold formatTranscript
  rw [if_neg h]
  have hd := data_ne_nil_of_ne_empty t h
  by_cases hp : lastCharIsPunct (capFirst t) = true
  · rw [if_pos hp]
    unfold capFirst
    cases ht : t.data with
    | nil => exact absurd ht hd
    | cons c cs =>
      intro he
      have := congrArg String.data he
      simp at this
  · rw [if_neg hp]
    intro he
    have := congrArg String.data he
    simp at this

/-- Reading chunks from an exhausted file yields nothing. -/
theorem chunksOf_nil (n : Nat) : chunksOf n ([] : List α) = [] := rfl

/-- With a zero read size the loop yields nothing (guard case; the source
always reads 4000). -/
theorem chunksOf_zero (l : List α) : chunksOf 0 l = [] := by
  cases l <;> simp [chunksOf, chunksOfAux]

/-- One unfolding of the read loop on a non-empty file. -/
theorem chunksOf_cons {n : Nat} {l : List α} (hl : l ≠ []) (hn : n ≠ 0) :
    chunksOf n l = l.take n :: chunksOf n (l.drop n) := by
  cases l with
  | nil => exact absurd rfl hl
  | cons x xs =>
    show chunksOfAux n (xs.length + 1) (x :: xs) = _
    have hstep : chunksOfAux n (xs.length + 1) (x :: xs)
        = (x :: xs).take n :: chunksOfAux n xs.length ((x :: xs).drop n) := by
      simp [chunksOfAux, hn]
    rw [hstep]
    congr 1
    apply chunksOfAux_congr
    · simp only [List.length_drop, List.length_cons]
      have : n ≠ 0 := hn
      omega
    · exact Nat.le_refl _

/-- Every chunk except possibly the last is a full `n`-sample read
(fuel-indexed induction on the file length). -/
theorem chunksOf_dropLast_len (n : Nat) :
    ∀ (N : Nat) (l : List α), l.length ≤ N →
      ∀ c ∈ (chunksOf n l).dropLast, c.length = n := by
  intro N
  induction N with
  | zero =>
    intro l hl c hc
    have h0 : l = [] := List.eq_nil_of_length_eq_zero (Nat.le_zero.mp hl)
    subst h0
    rw [chunksOf_nil] at hc
    simp at hc
  | succ N ih =>
    intro l hl c hc
    by_cases h0 : l = []
    · subst h0; rw [chunksOf_nil] at hc; simp at hc
    by_cases hn : n = 0
    · subst hn
      rw [chunksOf_zero] at hc
      simp at hc
    rw [chunksOf_cons h0 hn] at hc
    rcases hre : chunksOf n (l.drop n) with _ | ⟨d, ds⟩
    · rw [hre] at hc; simp at hc
    · rw [hre] at hc
      rw [List.dropLast_cons₂] at hc
      rcases List.mem_cons.mp hc with hc1 | hc2
      · have hdne : l.drop n ≠ [] := by
          intro hd
          rw [hd, chunksOf_nil] at hre
          exact absurd hre.symm (List.cons_ne_nil d ds)
        have hlen : n < l.length := by
          by_contra hcon
          push_neg at hcon
          exact hdne (List.drop_eq_nil_of_le hcon)
        subst hc1
        simp [List.length_take]
        omega
      · have := ih (l.drop n) (by simp [List.length_drop]; omega) c
        rw [hre] at this
        exact this hc2

/-- C3: `transcribe_file` fails, returning `None`, with the recognizer
state untouched and zero chunks read, both when the path does not exist
and when the audio is not single-channel 16-bit uncompressed PCM. -/
theorem c3_transcribe_file_fails_before_reading_frames {σ : Type}
    (M : RecMachine σ) (env : Env) (wavs : String → Option WavFile)
    (hasRec : Bool) (s : σ) (p : String) :
    (env.fs.pathExists p = false →
        transcribe_file M env wavs hasRec s p = (none, s, [])) ∧
    (∀ wf, wavs p = some wf →
        (wf.nchannels == 1 && wf.sampwidth == 2 && wf.comptype == "NONE") = false →
        transcribe_file M env wavs hasRec s p = (none, s, [])) := by
  constructor
  · intro h
    unfold transcribe_file
    cases hasRec <;> simp [h]
  · intro wf hw h
    unfold transcribe_file
    cases hasRec
    · simp
    · by_cases he : env.fs.pathExists p <;> simp [he, hw, h]

/-- Witness for C3: a missing path and a stereo WAV both fail with no
frames read (source recognizer, concrete environment). -/
theorem c3_witness :
    transcribe_file mockRecognizerMachine
        { fs := { files := ["good.wav"], dirs := [] }, cwd := "/app", projectRoot := "/app" }
        (fun q => if q = "good.wav"
                  then some { nchannels := 2, sampwidth := 2, comptype := "NONE", frames := [7] }
                  else none)
        true () "missing.wav" = (none, (), []) ∧
    transcribe_file mockRecognizerMachine
        { fs := { files := ["good.wav"], dirs := [] }, cwd := "/app", projectRoot := "/app" }
        (fun q => if q = "good.wav"
                  then some { nchannels := 2, sampwidth := 2, comptype := "NONE", frames := [7] }
                  else none)
        true () "good.wav" = (none, (), []) := by
  constructor
  · exact (c3_transcribe_file_fails_before_reading_frames mockRecognizerMachine
      { fs := { files := ["good.wav"], dirs := [] }, cwd := "/app", projectRoot := "/app" }
      (fun q => if q = "good.wav"
                then some { nchannels := 2, sampwidth := 2, comptype := "NONE", frames := [7] }
                else none)
      true () "missing.wav").1 (by decide)
  · exact (c3_transcribe_file_fails_before_reading_frames mockRecognizerMachine
      { fs := { files := ["good.wav"], dirs := [] }, cwd := "/app", projectRoot := "/app" }
      (fun q => if q = "good.wav"
                then some { nchannels := 2, sampwidth := 2, comptype := "NONE", frames := [7] }
                else none)
      true () "good.wav").2
      { nchannels := 2, sampwidth := 2, comptype := "NONE", frames := [7] }
      (by simp) (by decide)

/-- C4: a successful `transcribe_file` run with a non-empty collected
transcript streams exactly the 4000-sample read-loop chunks (all full-size
except possibly the last) and returns the concatenated result post-processed
exactly per the spec rule. -/
theorem c4_transcribe_file_chunking_and_postprocessing {σ : Type}
    (M : RecMachine σ) (env : Env) (wavs : String → Option WavFile)
    (s : σ) (p : String) (wf : WavFile)
    (hex : env.fs.pathExists p = true)
    (hw : wavs p = some wf)
    (hfmt : wf.nchannels = 1 ∧ wf.sampwidth = 2 ∧ wf.comptype = "NONE")
    (hne : collectedTranscript M s wf ≠ "") :
    (transcribe_file M env wavs true s p).1
        = some (specPostProcess (collectedTranscript M s wf)) ∧
    (transcribe_file M env wavs true s p).2.2 = chunksOf 4000 wf.frames ∧
    ∀ c ∈ (transcribe_file M env wavs true s p).2.2.dropLast, c.length = 4000 := by
  have hb : (wf.nchannels == 1 && wf.sampwidth == 2 && wf.comptype == "NONE") = true := by
    simp [hfmt.1, hfmt.2.1, hfmt.2.2]
  have hred : transcribe_file M env wavs true s p =
      (if formatTranscript (collectedTranscript M s wf) = ""
       then none else some (formatTranscript (collectedTranscript M s wf)),
       (M.finalResult (streamChunks M (M.reset s) (chunksOf 4000 wf.frames)).1).1,
       chunksOf 4000 wf.frames) := by
    unfold transcribe_file collectedTranscript
    simp [hex, hw, hb]
  refine ⟨?_, ?_, ?_⟩
  · rw [hred]
    rw [if_neg (formatTranscript_ne_empty _ hne)]
    rw [formatTranscript_eq_spec _ hne]
  · rw [hred]
  · rw [hred]
    exact chunksOf_dropLast_len 4000 wf.frames.length wf.frames (Nat.le_refl _)

/-- Witness for C4 at the source's own recognizer and a concrete mono
16-bit PCM file. -/
theorem c4_witness :
    (transcribe_file mockRecognizerMachine
        { fs := { files := ["f.wav"], dirs := [] }, cwd := "/app", projectRoot := "/app" }
        (fun q => if q = "f.wav"
                  then some { nchannels := 1, sampwidth := 2, comptype := "NONE",
                              frames := [1, 2, 3] }
                  else none)
        true () "f.wav").1
      = some (specPostProcess (collectedTranscript mockRecognizerMachine ()
          { nchannels := 1, sampwidth := 2, comptype := "NONE", frames := [1, 2, 3] })) ∧
    (transcribe_file mockRecognizerMachine
        { fs := { files := ["f.wav"], dirs := [] }, cwd := "/app", projectRoot := "/app" }
        (fun q => if q = "f.wav"
                  then some { nchannels := 1, sampwidth := 2, comptype := "NONE",
                              frames := [1, 2, 3] }
                  else none)
        true () "f.wav").2.2
      = chunksOf 4000 [1, 2, 3] ∧
    ∀ c ∈ (transcribe_file mockRecognizerMachine
        { fs := { files := ["f.wav"], dirs := [] }, cwd := "/app", projectRoot := "/app" }
        (fun q => if q = "f.wav"
                  then some { nchannels := 1, sampwidth := 2, comptype := "NONE",
                              frames := [1, 2, 3] }
                  else none)
        true () "f.wav").2.2.dropLast, c.length = 4000 :=
  c4_transcribe_file_chunking_and_postprocessing mockRecognizerMachine
    { fs := { files := ["f.wav"], dirs := [] }, cwd := "/app", projectRoot := "/app" }
    (fun q => if q = "f.wav"
              then some { nchannels := 1, sampwidth := 2, comptype := "NONE",
                          frames := [1, 2, 3] }
              else none)
    () "f.wav"
    { nchannels := 1, sampwidth := 2, comptype := "NONE", frames := [1, 2, 3] }
    (by decide) (by simp) (by decide) (by decide)

/-- The result of `transcribe_file` depends on the prior session state only
through `reset`: sessions whose reset images agree transcribe identically. -/
theorem transcribe_file_reset_invariant {σ : Type}
    (M : RecMachine σ) (env : Env) (wavs : String → Option WavFile)
    (p : String) (s s' : σ) (hr : M.reset s = M.reset s') :
    (transcribe_file M env wavs true s p).1 = (transcribe_file M env wavs true s' p).1 := by
  unfold transcribe_file
  by_cases hex : env.fs.pathExists p
  · cases hw : wavs p with
    | none => simp [hex, hw]
    | some wf =>
      by_cases hf : (wf.nchannels == 1 && wf.sampwidth == 2 && wf.comptype == "NONE") = true
      · simp only [hex, hw, hf, Bool.not_true, Bool.false_eq_true, if_false]
        rw [hr]
      · simp [hex, hw, hf]
  · simp [hex]

/-- C6: calling `transcribe_file` twice on the same file without an
intervening explicit reset returns the same transcript, because the call
resets the session before streaming — under the engine contract that
`Reset` restores a recognizer to its initial state (which the source's own
recognizer satisfies). -/
theorem c6_transcribe_file_no_double_count {σ : Type}
    (M : RecMachine σ) (env : Env) (wavs : String → Option WavFile)
    (s : σ) (p : String) (h : ∀ a b : σ, M.reset a = M.reset b) :
    (transcribe_file M env wavs true
        ((transcribe_file M env wavs true s p).2.1) p).1
      = (transcribe_file M env wavs true s p).1 :=
  transcribe_file_reset_invariant M env wavs p _ s (h _ s)

/-- Witness for C6: the source's recognizer on a concrete file — the
repeated call returns the same transcript. -/
theorem c6_witness :
    (transcribe_file mockRecognizerMachine
        { fs := { files := ["f.wav"], dirs := [] }, cwd := "/app", projectRoot := "/app" }
        (fun q => if q = "f.wav"
                  then some { nchannels := 1, sampwidth := 2, comptype := "NONE",
                              frames := [1, 2, 3] }
                  else none)
        true
        ((transcribe_file mockRecognizerMachine
            { fs := { files := ["f.wav"], dirs := [] }, cwd := "/app", projectRoot := "/app" }
            (fun q => if q = "f.wav"
                      then some { nchannels := 1, sampwidth := 2, comptype := "NONE",
                                  frames := [1, 2, 3] }
                      else none)
            true () "f.wav").2.1) "f.wav").1
      = (transcribe_file mockRecognizerMachine
          { fs := { files := ["f.wav"], dirs := [] }, cwd := "/app", projectRoot := "/app" }
          (fun q => if q = "f.wav"
                    then some { nchannels := 1, sampwidth := 2, comptype := "NONE",
                                frames := [1, 2, 3] }
                    else none)
          true () "f.wav").1 :=
  c6_transcribe_file_no_double_count mockRecognizerMachine
    { fs := { files := ["f.wav"], dirs := [] }, cwd := "/app", projectRoot := "/app" }
    (fun q => if q = "f.wav"
              then some { nchannels := 1, sampwidth := 2, comptype := "NONE",
                          frames := [1, 2, 3] }
              else none)
    () "f.wav" (fun _ _ => rfl)


/-- A Python value as `ConfigManager` stores it: a (string-keyed,
insertion-ordered) dict of values, or an opaque non-dict leaf. -/
inductive PyVal (α : Type) where
  | dict (entries : List (String × PyVal α))
  | leaf (a : α)

/-- Assoc lookup on dict entries (`key in config` / `config[key]`). -/
def aGet {α : Type} : List (String × PyVal α) → String → Option (PyVal α)
  | [], _ => none
  | (k', v) :: rest, k => if k' = k then some v else aGet rest k

/-- Assoc update on dict entries (`config[key] = v`). -/
def aSet {α : Type} : List (String × PyVal α) → String → PyVal α → List (String × PyVal α)
  | [], k, v => [(k, v)]
  | (k', v') :: rest, k, v =>
      if k' = k then (k, v) :: rest else (k', v') :: aSet rest k v

/-- Embedding of Python's `str.split(sep)` on a single-character
separator, over character lists (never returns an empty list). -/
def splitCharsOn (sep : Char) : List Char → List Char → List (List Char)
  | [], acc => [acc.reverse]
  | c :: cs, acc =>
      if c = sep then acc.reverse :: splitCharsOn sep cs []
      else splitCharsOn sep cs (c :: acc)

/-- Embedding of `key.split('.')`. -/
def pySplitOnDot (s : String) : List String :=
  (splitCharsOn '.' s.data []).map String.mk

/-- Embedding of `'.' in key`. -/
def pyContainsDot (s : String) : Bool := s.data.contains '.'

/-- The shared key preprocessing of `get_config`/`set_config`: a single
dotted key is split on dots. -/
def splitKeys (keys : List String) : List String :=
  match keys with
  | [k] => if pyContainsDot k then pySplitOnDot k else keys
  | _ => keys

/-- The walk of `ConfigManager.get_config`: descend while the current
value is a dict containing the key, else return the default. -/
def getGo {α : Type} : PyVal α → List String → Option (PyVal α) → Option (PyVal α)
  | v, [], _ => some v
  | .dict es, k :: rest, d =>
      match aGet es k with
      | some v => getGo v rest d
      | none => d
  | .leaf _, _ :: _, d => d

/-- Embedding of `ConfigManager.get_config(*keys, default)`.  The manager
state is `self._config` (`none` models Python `None`). -/
def get_config {α : Type} (st : Option (PyVal α)) (keys : List String)
    (dflt : Option (PyVal α)) : Option (PyVal α) :=
  if keys.isEmpty then dflt
  else
    let ks := splitKeys keys
    match st with
    | none => dflt
    | some v => getGo v ks dflt

/-- The walk of `ConfigManager.set_config`, with Python reference
semantics made explicit: a missing or non-dict intermediate entry is
replaced by a fresh dict in place; a single remaining key on a non-dict
root resets the root (`self._config = config` after the loop); a non-dict
root with several keys left detaches the walk (`config = \x7b\x7d` rebinds the
local only), so the write is lost and the root is returned unchanged. -/
def setGo {α : Type} : List String → PyVal α → PyVal α → PyVal α
  | [], root, _ => root
  | [k], root, v =>
      match root with
      | .dict es => .dict (aSet es k v)
      | .leaf _ => .dict [(k, v)]
  | k :: k2 :: rest, root, v =>
      match root with
      | .dict es =>
          let sub :=
            match aGet es k with
            | some (.dict s) => PyVal.dict s
            | _ => PyVal.dict []
          .dict (aSet es k (setGo (k2 :: rest) sub v))
      | .leaf _ => root

/-- Embedding of `ConfigManager.set_config(value, *keys)`: returns the
boolean result together with the new manager state. -/
def set_config {α : Type} (st : Option (PyVal α)) (value : PyVal α)
    (keys : List String) : Bool × Option (PyVal α) :=
  if keys.isEmpty then (false, st)
  else
    let root :=
      match st with
      | none => PyVal.dict []
      | some v => v
    let ks := splitKeys keys
    (true, some (setGo ks root value))

/-- Updating a key then reading it back yields the written value. -/
theorem aGet_aSet {α : Type} (es : List (String × PyVal α)) (k : String) (v : PyVal α) :
    aGet (aSet es k v) k = some v := by
  induction es with
  | nil => simp [aGet, aSet]
  | cons e rest ih =>
    cases e with
    | mk k1 v1 =>
      by_cases hk : k1 = k
      · simp [aSet, aGet, hk]
      · simp [aSet, aGet, hk, ih]

/-- Python's split never yields an empty list of parts. -/
theorem splitCharsOn_ne_nil (sep : Char) :
    ∀ (l acc : List Char), splitCharsOn sep l acc ≠ [] := by
  intro l
  induction l with
  | nil => intro acc; simp [splitCharsOn]
  | cons c cs ih =>
    intro acc
    by_cases hc : c = sep
    · simp [splitCharsOn, hc]
    · simp only [splitCharsOn, hc, if_false]
      exact ih (c :: acc)

/-- The shared key preprocessing never produces an empty path. -/
theorem splitKeys_ne_nil (keys : List String) (hk : keys ≠ []) : splitKeys keys ≠ [] := by
  unfold splitKeys
  cases keys with
  | nil => exact absurd rfl hk
  | cons a as =>
    cases as with
    | nil =>
      by_cases hc : pyContainsDot a = true
      · simp only [hc, if_true]
        unfold pySplitOnDot
        intro h
        rw [List.map_eq_nil_iff] at h
        exact splitCharsOn_ne_nil '.' a.data [] h
      · simp [hc]
    | cons b bs => simp

/-- The set-walk followed by the get-walk along the same key path finds
the written value whenever the root is a dict, or only one key remains
(where a non-dict root is reset before the write). -/
theorem getGo_setGo {α : Type} :
    ∀ (ks : List String) (root v : PyVal α) (d : Option (PyVal α)),
      ks ≠ [] →
      ((∃ es, root = .dict es) ∨ ks.length = 1) →
      getGo (setGo ks root v) ks d = some v := by
  intro ks
  induction ks with
  | nil => intro root v d hk _; exact absurd rfl hk
  | cons k rest ih =>
    intro root v d _ hroot
    cases rest with
    | nil =>
      cases root with
      | dict es => simp [setGo, getGo, aGet_aSet]
      | leaf a => simp [setGo, getGo, aGet]
    | cons k2 rest2 =>
      cases root with
      | dict es =>
        show getGo (.dict (aSet es k (setGo (k2 :: rest2)
            (match aGet es k with
             | some (.dict s) => PyVal.dict s
             | _ => PyVal.dict []) v))) (k :: k2 :: rest2) d = some v
        have hstep : getGo (.dict (aSet es k (setGo (k2 :: rest2)
            (match aGet es k with
             | some (.dict s) => PyVal.dict s
             | _ => PyVal.dict []) v))) (k :: k2 :: rest2) d
            = (match aGet (aSet es k (setGo (k2 :: rest2)
                (match aGet es k with
                 | some (.dict s) => PyVal.dict s
                 | _ => PyVal.dict []) v)) k with
               | some w => getGo w (k2 :: rest2) d
               | none => d) := rfl
        rw [hstep, aGet_aSet]
        apply ih _ _ _ (List.cons_ne_nil _ _)
        left
        cases hsub : aGet es k with
        | none => exact ⟨[], rfl⟩
        | some w =>
          cases w with
          | dict s => exact ⟨s, rfl⟩
          | leaf a => exact ⟨[], rfl⟩
      | leaf a =>
        rcases hroot with ⟨es, hes⟩ | hlen
        · cases hes
        · simp at hlen

/-- C10: whenever `set_config(value, *keys)` succeeds on a manager whose
retained config is a dict (or `None`, as the class maintains), an
immediately following `get_config(*keys)` returns that same value — both
operations split a single dotted key into the same path. -/
theorem c10_set_get_roundtrip {α : Type} (st : Option (PyVal α)) (value : PyVal α)
    (keys : List String) (d : Option (PyVal α))
    (hk : keys ≠ [])
    (hst : st = none ∨ ∃ es, st = some (.dict es)) :
    (set_config st value keys).1 = true ∧
    get_config (set_config st value keys).2 keys d = some value := by
  have hkeys : keys.isEmpty = false := by
    cases keys with
    | nil => exact absurd rfl hk
    | cons a as => rfl
  have hks := splitKeys_ne_nil keys hk
  constructor
  · unfold set_config
    simp [hkeys]
  · rcases hst with rfl | ⟨es, rfl⟩
    · unfold set_config get_config
      simp only [hkeys, Bool.false_eq_true, if_false]
      exact getGo_setGo (splitKeys keys) _ value d hks (Or.inl ⟨[], rfl⟩)
    · unfold set_config get_config
      simp only [hkeys, Bool.false_eq_true, if_false]
      exact getGo_setGo (splitKeys keys) _ value d hks (Or.inl ⟨es, rfl⟩)

/-- Witness for C10: a dotted key on an empty manager round-trips a
concrete value. -/
theorem c10_witness :
    (set_config (some (PyVal.dict ([] : List (String × PyVal Nat)))) (PyVal.leaf 5)
        ["transcription.default_model"]).1 = true ∧
    get_config
        (set_config (some (PyVal.dict ([] : List (String × PyVal Nat)))) (PyVal.leaf 5)
          ["transcription.default_model"]).2
        ["transcription.default_model"] none = some (PyVal.leaf 5) :=
  c10_set_get_roundtrip (some (PyVal.dict [])) (PyVal.leaf 5)
    ["transcription.default_model"] none (by simp) (Or.inr ⟨[], rfl⟩)

/-- C8: for a sherpa-family model type, `validate_model_files` returns true
iff the model root exists and all four named artifact files
(`encoder.onnx`, `decoder.onnx`, `joiner.onnx`, `tokens.txt`) exist
directly under the model root. -/
theorem c8_validate_model_files_sherpa (env : Env) (mp mt : String)
    (h : pyStartsWith mt "sherpa" = true) :
    validate_model_files env mp mt = true ↔
      (env.fs.pathExists mp = true ∧
        ∀ f ∈ sherpaRequiredFiles, env.fs.pathExists (pjoin mp f) = true) := by
  unfold validate_model_files
  rw [h]
  by_cases hmp : env.fs.pathExists mp
  · simp [hmp, List.all_eq_true]
  · simp [hmp]

/-- Witness for C8 at a concrete filesystem: a fully populated sherpa model
root validates. -/
theorem c8_witness :
    validate_model_files
      { fs := { files := ["m/encoder.onnx", "m/decoder.onnx", "m/joiner.onnx", "m/tokens.txt"],
                dirs := ["m"] },
        cwd := "/app", projectRoot := "/app" } "m" "sherpa_onnx" = true := by
  have h := c8_validate_model_files_sherpa
    { fs := { files := ["m/encoder.onnx", "m/decoder.onnx", "m/joiner.onnx", "m/tokens.txt"],
              dirs := ["m"] },
      cwd := "/app", projectRoot := "/app" } "m" "sherpa_onnx" (by decide)
  exact h.mpr (by decide)
